import Mathlib

/-!
Shallow embedding of the conversation session manager in
`src/streamlit_app/app.py`: the message log, the projection of the log into
the provider's chat-history format (lines 140-148), the turn flow around the
remote call (lines 114-167), the clear-chat action (lines 100-102), and the
model-discovery helper `get_available_models` (lines 25-34).

The remote model API is an external collaborator; it is modelled as a
function from (history, new message text) to `Except String String`
(error message or reply text), standing for the `try` block's outcome.
-/

namespace App

/-- A chat log entry: `{"role": ..., "content": ...}`.  The source stores the
role as a plain string (`"user"` / `"assistant"`), so the embedding does too. -/
structure Message where
  role : String
  content : String
deriving DecidableEq

/-- A provider-format turn: `{"role": ..., "parts": [...]}` as built by the
loop at lines 140-145. -/
structure ProviderTurn where
  role : String
  parts : List String
deriving DecidableEq

/-- Lines 140-145: the `chat_history` loop.  `user` maps to role `"user"`,
`assistant` maps to role `"model"`, any other role is skipped by the
`if`/`elif` with no `else`. -/
def chatHistory : List Message → List ProviderTurn
  | [] => []
  | m :: rest =>
    if m.role = "user" then ⟨"user", [m.content]⟩ :: chatHistory rest
    else if m.role = "assistant" then ⟨"model", [m.content]⟩ :: chatHistory rest
    else chatHistory rest

/-- The spec's `projectHistory(log, excludeLast)`.  With `excludeLast = false`
it is the `chat_history` list itself; with `excludeLast = true` it is the
argument passed to `start_chat` at line 148:
`chat_history[:-1] if len(chat_history) > 1 else []`. -/
def projectHistory (log : List Message) (excludeLast : Bool) : List ProviderTurn :=
  if excludeLast then
    if (chatHistory log).length > 1 then (chatHistory log).dropLast else []
  else
    chatHistory log

/-- Lines 148-155: seed the chat with the sliced history and submit
`st.session_state.messages[-1]["content"]` as the new message.  `remote`
models the provider call (model construction + `start_chat` + `send_message`)
returning either the reply text or the exception's message. -/
def sendTurn (remote : List ProviderTurn → String → Except String String)
    (log : List Message) : Except String String :=
  remote (projectHistory log true)
    (match log.getLast? with
     | some m => m.content
     | none => "")

/-- Outcome surfaced to the UI shell by one run of the turn flow. -/
inductive FlowResult where
  | configError : FlowResult
  | genError : String → FlowResult
  | success : String → FlowResult
deriving DecidableEq

/-- Lines 114-167: the turn flow.  Append the user message (line 116); if the
client is unconfigured, pop it and surface a configuration error
(lines 121-123); otherwise run the remote call: on success append the
assistant reply (lines 160-163), on any exception pop the user message
(line 167). -/
def turnFlow (configured : Bool)
    (remote : List ProviderTurn → String → Except String String)
    (log : List Message) (prompt : String) : List Message × FlowResult :=
  let log1 := log ++ [⟨"user", prompt⟩]
  if !configured then
    (log1.dropLast, FlowResult.configError)
  else
    match sendTurn remote log1 with
    | Except.ok text => (log1 ++ [⟨"assistant", text⟩], FlowResult.success text)
    | Except.error e => (log1.dropLast, FlowResult.genError e)

/-- Lines 100-102: the clear-chat button sets `st.session_state.messages = []`. -/
def clearChat (_log : List Message) : List Message := []

/-- A sequence of turn flows in which every remote call succeeds: each turn is
a (prompt, reply) pair and its remote call returns `Except.ok reply`. -/
def runTurns : List Message → List (String × String) → List Message
  | log, [] => log
  | log, (p, r) :: rest =>
    runTurns (turnFlow true (fun _ _ => Except.ok r) log p).1 rest

/-- A model record as returned by the remote listing: its `name` and its
`supported_generation_methods`. -/
structure RemoteModel where
  name : String
  supported_generation_methods : List String
deriving DecidableEq

/-- Line 31/34: the fixed fallback list of three known model identifiers. -/
def fallbackModels : List String :=
  ["gemini-pro", "gemini-1.5-pro-latest", "gemini-1.5-flash-latest"]

/-- Line 30: the comprehension filtering for `generateContent` support and
stripping the `models/` prefix from each name. -/
def filteredModelNames (models : List RemoteModel) : List String :=
  (models.filter
      (fun m => m.supported_generation_methods.contains "generateContent")).map
    (fun m => m.name.replace "models/" "")

/-- Lines 25-34: `get_available_models`.  The remote listing is modelled as an
`Except` value (line 28's `genai.list_models()` either raises or returns the
model records).  On success the filtered names are returned unless the Python
list is falsy (empty), in which case the fallback is returned (line 31); on
any exception the fallback is returned (line 34). -/
def get_available_models (listing : Except String (List RemoteModel)) :
    List String :=
  match listing with
  | Except.ok models =>
    let available := filteredModelNames models
    if available = [] then fallbackModels else available
  | Except.error _ => fallbackModels

/-- The spec's elementwise role mapping for a single message,
`user → {speaker: "user"}`, `assistant → {speaker: "model"}` (carrying the
message's content as the text). -/
def providerTurnOf (m : Message) : ProviderTurn :=
  if m.role = "user" then ⟨"user", [m.content]⟩ else ⟨"model", [m.content]⟩

/-- The expected role sequence after `n` fully successful turns. -/
def alternatingUA : Nat → List String
  | 0 => []
  | n + 1 => "user" :: "assistant" :: alternatingUA n

/-- The log appended by a list of successful (prompt, reply) turns. -/
def expandTurns : List (String × String) → List Message
  | [] => []
  | (p, r) :: rest => ⟨"user", p⟩ :: ⟨"assistant", r⟩ :: expandTurns rest

-- Helper lemmas (shared across claims)

lemma chatHistory_length_le (log : List Message) :
    (chatHistory log).length ≤ log.length := by
  induction log with
  | nil => simp [chatHistory]
  | cons m rest ih =>
    by_cases hu : m.role = "user"
    · simp [chatHistory, hu]; omega
    · by_cases ha : m.role = "assistant"
      · simp [chatHistory, hu, ha]; omega
      · simp [chatHistory, hu, ha]; omega

lemma chatHistory_eq_map (log : List Message)
    (h : ∀ m ∈ log, m.role = "user" ∨ m.role = "assistant") :
    chatHistory log = log.map providerTurnOf := by
  induction log with
  | nil => simp [chatHistory]
  | cons m rest ih =>
    have hm := h m (by simp)
    have hrest : ∀ x ∈ rest, x.role = "user" ∨ x.role = "assistant" :=
      fun x hx => h x (by simp [hx])
    rcases hm with hu | ha
    · simp [chatHistory, hu, providerTurnOf, ih hrest]
    · by_cases hu : m.role = "user"
      · simp [chatHistory, hu, providerTurnOf, ih hrest]
      · simp [chatHistory, hu, ha, providerTurnOf, ih hrest]

lemma chatHistory_append (l₁ l₂ : List Message) :
    chatHistory (l₁ ++ l₂) = chatHistory l₁ ++ chatHistory l₂ := by
  induction l₁ with
  | nil => simp [chatHistory]
  | cons m rest ih =>
    by_cases hu : m.role = "user"
    · simp [chatHistory, hu, ih]
    · by_cases ha : m.role = "assistant"
      · simp [chatHistory, hu, ha, ih]
      · simp [chatHistory, hu, ha, ih]

lemma turnFlow_ok (log : List Message) (p r : String) :
    turnFlow true (fun _ _ => Except.ok r) log p =
      (log ++ [⟨"user", p⟩, ⟨"assistant", r⟩], FlowResult.success r) := by
  simp [turnFlow, sendTurn]

lemma runTurns_eq (turns : List (String × String)) :
    ∀ log, runTurns log turns = log ++ expandTurns turns := by
  induction turns with
  | nil => intro log; simp [runTurns, expandTurns]
  | cons pr rest ih =>
    intro log
    obtain ⟨p, r⟩ := pr
    simp [runTurns, turnFlow_ok, ih, expandTurns]

lemma expandTurns_length (turns : List (String × String)) :
    (expandTurns turns).length = 2 * turns.length := by
  induction turns with
  | nil => simp [expandTurns]
  | cons pr rest ih =>
    obtain ⟨p, r⟩ := pr
    simp [expandTurns, ih]; omega

lemma expandTurns_roles (turns : List (String × String)) :
    (expandTurns turns).map Message.role = alternatingUA turns.length := by
  induction turns with
  | nil => simp [expandTurns, alternatingUA]
  | cons pr rest ih =>
    obtain ⟨p, r⟩ := pr
    simp [expandTurns, alternatingUA, ih]

lemma gam_ne_nil (listing : Except String (List RemoteModel)) :
    get_available_models listing ≠ [] := by
  match listing with
  | Except.error e => simp [get_available_models, fallbackModels]
  | Except.ok ms =>
    simp only [get_available_models]
    by_cases h : filteredModelNames ms = []
    · simp [h, fallbackModels]
    · simp [h]

lemma dropLast_concat_log (log : List Message) (m : Message) :
    (log ++ [m]).dropLast = log := by
  simp

-- Claim theorems

/-- C1: for every log and every failing remote call, the turn flow restores
the log to exactly its pre-submission state: the speculatively appended user
turn is popped, no assistant turn is appended, and a generation error carrying
the exception's message is surfaced. -/
theorem turnFlow_rollback_on_error (log : List Message) (prompt e : String)
    (remote : List ProviderTurn → String → Except String String)
    (h : sendTurn remote (log ++ [⟨"user", prompt⟩]) = Except.error e) :
    turnFlow true remote log prompt = (log, FlowResult.genError e) := by
  simp [turnFlow, h]

/-- C1 witness: a remote call failing with a quota message on submitting
"Hi" to an empty log leaves the log empty and surfaces the error. -/
theorem turnFlow_rollback_on_error_witness :
    turnFlow true (fun _ _ => Except.error "quota exceeded") [] "Hi" =
      ([], FlowResult.genError "quota exceeded") :=
  turnFlow_rollback_on_error [] "Hi" "quota exceeded"
    (fun _ _ => Except.error "quota exceeded") rfl

/-- C2 counterexample: for the one-element log `[{user,"Hi"}]`, the code's
`excludeLast=true` projection (line 148 passes `[]` whenever the projected
history has at most one element) differs from the `excludeLast=false`
projection, refuting the claim that the two agree whenever the log has at
most one entry. -/
theorem projectHistory_one_element_differs :
    ¬ (projectHistory [⟨"user", "Hi"⟩] true
        = projectHistory [⟨"user", "Hi"⟩] false) := by
  decide

/-- C2 amended: for logs over the two declared roles, the `excludeLast=true`
projection omits the final mapped element when the log has more than one
entry; when the log has at most one entry the result is the empty projection,
which agrees with `excludeLast=false` for the empty log but for a one-element
log is empty rather than the single mapped element. -/
theorem projectHistory_excludeLast_spec (log : List Message)
    (h : ∀ m ∈ log, m.role = "user" ∨ m.role = "assistant") :
    (log.length > 1 →
      projectHistory log true = (chatHistory log).dropLast)
    ∧ (log.length ≤ 1 → projectHistory log true = [])
    ∧ (log = [] → projectHistory log true = projectHistory log false)
    ∧ (∀ m, log = [m] → projectHistory log false = [providerTurnOf m]) := by
  have hlen : (chatHistory log).length = log.length := by
    rw [chatHistory_eq_map log h]; simp
  refine ⟨?_, ?_, ?_, ?_⟩
  · intro hgt
    simp [projectHistory, hlen, hgt]
  · intro hle
    have : ¬ (chatHistory log).length > 1 := by omega
    simp [projectHistory, this]
  · intro he
    subst he
    simp [projectHistory, chatHistory]
  · intro m hm
    subst hm
    rcases h m (by simp) with hu | ha
    · simp [projectHistory, chatHistory, hu, providerTurnOf]
    · by_cases hu : m.role = "user"
      · simp [projectHistory, chatHistory, hu, providerTurnOf]
      · simp [projectHistory, chatHistory, hu, ha, providerTurnOf]

/-- C2 amended witness: on the two-element log `[{user,"Hi"},
{assistant,"Hello"}]`, the `excludeLast=true` projection is the full
projection minus its last element. -/
theorem projectHistory_excludeLast_spec_witness :
    projectHistory [⟨"user", "Hi"⟩, ⟨"assistant", "Hello"⟩] true
      = (chatHistory [⟨"user", "Hi"⟩, ⟨"assistant", "Hello"⟩]).dropLast :=
  (projectHistory_excludeLast_spec
      [⟨"user", "Hi"⟩, ⟨"assistant", "Hello"⟩] (by decide)).1 (by decide)

/-- C3: when the log's last entry is a user turn with content `t`, `sendTurn`
calls the provider exactly at history `projectHistory log true` and new
message `t`; in particular for the log `[{user,"Hi"}, {assistant,"Hello"},
{user,"How are you?"}]` the provider is called with history
`[{user,["Hi"]}, {model,["Hello"]}]` and new message "How are you?". -/
theorem sendTurn_call_shape :
    (∀ (log : List Message) (t : String)
        (remote : List ProviderTurn → String → Except String String),
      log.getLast? = some ⟨"user", t⟩ →
        sendTurn remote log = remote (projectHistory log true) t)
    ∧ (∀ remote : List ProviderTurn → String → Except String String,
        sendTurn remote
            [⟨"user", "Hi"⟩, ⟨"assistant", "Hello"⟩, ⟨"user", "How are you?"⟩]
          = remote [⟨"user", ["Hi"]⟩, ⟨"model", ["Hello"]⟩] "How are you?") := by
  constructor
  · intro log t remote hlast
    simp [sendTurn, hlast]
  · intro remote
    have h1 : projectHistory
        [⟨"user", "Hi"⟩, ⟨"assistant", "Hello"⟩, ⟨"user", "How are you?"⟩] true
        = [⟨"user", ["Hi"]⟩, ⟨"model", ["Hello"]⟩] := by decide
    simp [sendTurn, h1]

/-- C3 witness: applying the call-shape theorem to the concrete one-element
log `[{user,"Hi"}]` with a remote that echoes the new message. -/
theorem sendTurn_call_shape_witness :
    sendTurn (fun _ m => Except.ok m) [⟨"user", "Hi"⟩] =
      (fun (_ : List ProviderTurn) (m : String) => Except.ok m)
        (projectHistory [⟨"user", "Hi"⟩] true) "Hi" :=
  sendTurn_call_shape.1 [⟨"user", "Hi"⟩] "Hi" (fun _ m => Except.ok m) rfl

/-- C4: starting from the empty log, any sequence of fully successful turn
flows yields a log of length twice the number of turns whose roles alternate
user/assistant starting with user. -/
theorem runTurns_length_and_roles (turns : List (String × String)) :
    (runTurns [] turns).length = 2 * turns.length
    ∧ (runTurns [] turns).map Message.role = alternatingUA turns.length := by
  rw [runTurns_eq turns []]
  simpa using ⟨expandTurns_length turns, expandTurns_roles turns⟩

/-- C5: for logs over the two declared roles, `chatHistory` is exactly the
elementwise role-mapped image of the log: order and count are preserved, each
element's parts hold the corresponding message's content, and the role map is
`user → "user"`, `assistant → "model"`. -/
theorem chatHistory_elementwise (log : List Message)
    (h : ∀ m ∈ log, m.role = "user" ∨ m.role = "assistant") :
    chatHistory log = log.map providerTurnOf
    ∧ (chatHistory log).length = log.length
    ∧ (∀ m ∈ log,
        (m.role = "user" ∧ providerTurnOf m = ⟨"user", [m.content]⟩)
        ∨ (m.role = "assistant" ∧ providerTurnOf m = ⟨"model", [m.content]⟩))
    ∧ (log.length > 1 →
        projectHistory log true = (log.map providerTurnOf).dropLast) := by
  have hmap := chatHistory_eq_map log h
  have hlen : (chatHistory log).length = log.length := by rw [hmap]; simp
  refine ⟨hmap, hlen, ?_, ?_⟩
  · intro m hm
    rcases h m hm with hu | ha
    · exact Or.inl ⟨hu, by simp [providerTurnOf, hu]⟩
    · right
      refine ⟨ha, ?_⟩
      by_cases hu : m.role = "user"
      · rw [hu] at ha
        exact absurd ha (by decide)
      · simp [providerTurnOf, hu]
  · intro hgt
    simp [projectHistory, hlen, hgt, hmap]

/-- C5 witness: the projection of `[{user,"Hi"}, {assistant,"Hello"}]` is its
elementwise role-mapped image. -/
theorem chatHistory_elementwise_witness :
    chatHistory [⟨"user", "Hi"⟩, ⟨"assistant", "Hello"⟩]
      = [Message.mk "user" "Hi", Message.mk "assistant" "Hello"].map
          providerTurnOf :=
  (chatHistory_elementwise [⟨"user", "Hi"⟩, ⟨"assistant", "Hello"⟩]
    (by decide)).1

/-- C6: when the remote client is not configured, the turn flow returns the
log unchanged and surfaces a configuration error, for every prior log, every
prompt and every remote function — so the remote call's outcome is never
consulted, and an empty log stays empty. -/
theorem turnFlow_unconfigured (log : List Message) (prompt : String)
    (remote : List ProviderTurn → String → Except String String) :
    turnFlow false remote log prompt = (log, FlowResult.configError) := by
  simp [turnFlow]

/-- C7 counterexample: a successful listing whose only model lacks
`generateContent` support makes `get_available_models` return the fallback
list, not the (empty) filtered list the claim's success case describes. -/
theorem get_available_models_not_filtered :
    get_available_models
        (Except.ok [⟨"models/embedding-001", ["embedContent"]⟩])
      ≠ filteredModelNames [⟨"models/embedding-001", ["embedContent"]⟩] := by
  decide

/-- C7 amended: model discovery always returns a non-empty list; on a failed
listing it returns the fixed three-identifier fallback; on a successful
listing it returns the filtered model names when that filter is non-empty,
and the fallback when the filter yields no models. -/
theorem get_available_models_spec (listing : Except String (List RemoteModel)) :
    get_available_models listing ≠ []
    ∧ (∀ e, listing = Except.error e →
        get_available_models listing = fallbackModels)
    ∧ (∀ ms, listing = Except.ok ms → filteredModelNames ms ≠ [] →
        get_available_models listing = filteredModelNames ms)
    ∧ (∀ ms, listing = Except.ok ms → filteredModelNames ms = [] →
        get_available_models listing = fallbackModels) := by
  refine ⟨gam_ne_nil listing, ?_, ?_, ?_⟩
  · intro e he
    subst he
    simp [get_available_models]
  · intro ms hms hne
    subst hms
    simp [get_available_models, hne]
  · intro ms hms hnil
    subst hms
    simp [get_available_models, hnil]

/-- C7 amended witness: a successful listing with one `generateContent` model
yields that model's stripped name. -/
theorem get_available_models_spec_witness :
    get_available_models (Except.ok [⟨"models/gemini-pro", ["generateContent"]⟩])
      = filteredModelNames [⟨"models/gemini-pro", ["generateContent"]⟩] :=
  (get_available_models_spec
      (Except.ok [⟨"models/gemini-pro", ["generateContent"]⟩])).2.2.1
    [⟨"models/gemini-pro", ["generateContent"]⟩] rfl (by decide)

/-- C8: the clear action resets the log to the empty sequence
unconditionally, regardless of prior state. -/
theorem clearChat_empties (log : List Message) : clearChat log = [] := rfl

/-- C9: an entry whose role is neither "user" nor "assistant" contributes no
element to the projected history — the projection of a log containing it
equals the projection with it removed — and for such a log the projection is
strictly shorter than the log, so count preservation fails outside the two
declared roles. -/
theorem chatHistory_drops_unknown_roles (l₁ l₂ : List Message) (m : Message)
    (h1 : m.role ≠ "user") (h2 : m.role ≠ "assistant") :
    chatHistory (l₁ ++ m :: l₂) = chatHistory (l₁ ++ l₂)
    ∧ (chatHistory (l₁ ++ m :: l₂)).length < (l₁ ++ m :: l₂).length := by
  have hm : chatHistory (m :: l₂) = chatHistory l₂ := by
    simp [chatHistory, h1, h2]
  have heq : chatHistory (l₁ ++ m :: l₂) = chatHistory (l₁ ++ l₂) := by
    rw [chatHistory_append, hm, chatHistory_append]
  refine ⟨heq, ?_⟩
  rw [heq, chatHistory_append]
  have e1 := chatHistory_length_le l₁
  have e2 := chatHistory_length_le l₂
  simp only [List.length_append, List.length_cons]
  omega

/-- C9 witness: a log holding only a "system" entry projects to the empty
history, strictly shorter than the log. -/
theorem chatHistory_drops_unknown_roles_witness :
    chatHistory ([] ++ Message.mk "system" "boot" :: []) = chatHistory ([] ++ [])
    ∧ (chatHistory ([] ++ Message.mk "system" "boot" :: [])).length
        < ([] ++ Message.mk "system" "boot" :: []).length :=
  chatHistory_drops_unknown_roles [] [] ⟨"system", "boot"⟩
    (by decide) (by decide)

/-- C10: when the listing succeeds but the capability filter yields zero
models, model discovery returns the fixed fallback list; on a failed listing
it also returns the fallback; and in every case the result is non-empty. -/
theorem get_available_models_fallback_cases :
    (∀ ms, filteredModelNames ms = [] →
      get_available_models (Except.ok ms) = fallbackModels)
    ∧ (∀ e, get_available_models (Except.error e) = fallbackModels)
    ∧ (∀ listing, get_available_models listing ≠ []) := by
  refine ⟨?_, ?_, gam_ne_nil⟩
  · intro ms hnil
    simp [get_available_models, hnil]
  · intro e
    simp [get_available_models]

/-- C10 witness: a successful listing with no models at all yields the
fallback list. -/
theorem get_available_models_fallback_cases_witness :
    get_available_models (Except.ok []) = fallbackModels :=
  get_available_models_fallback_cases.1 [] rfl

end App
